import Mathlib

/-!
Verification of the dh-config layered configuration loader.

The definitions below are a shallow embedding of the JavaScript module
(`ServerConfig` and its prototype methods, plus the module-level singleton
factory).  JavaScript exceptions are modelled with `Except String`,
JavaScript `undefined` is `Option.none`, and JSON `null` is an explicit
`JValue.vNull` value.  The nconf library the module delegates to is not part
of the repository sources; its source-store behaviour is modelled from the
specification (see the doc comments marked "Modelled from the spec").
-/

set_option autoImplicit false

namespace DhConfig

/-- A JSON-like settings value: scalars, null, or a nested string-keyed
mapping.  Mappings are association lists in source order, as produced by
parsing a JSON object. -/
inductive JValue where
  | vNull
  | vBool (b : Bool)
  | vNum (n : Int)
  | vStr (s : String)
  | vObj (fields : List (String × JValue))

/-- First-match association-list lookup, the model of JavaScript property
access `obj[key]` on a plain object. -/
def jlookup : List (String × JValue) → String → Option JValue
  | [], _ => none
  | (m, v) :: rest, k => if m = k then some v else jlookup rest k

/-- Traverse a settings value along a list of path segments; `none` when a
segment is missing or the current value is not a mapping. -/
def treeGetPath : JValue → List String → Option JValue
  | v, [] => some v
  | JValue.vObj fields, k :: ks =>
    match jlookup fields k with
    | some w => treeGetPath w ks
    | none => none
  | _, _ :: _ => none

/-- Whether a mapping-or-scalar value has a given top-level key. -/
def topHas (v : JValue) (k : String) : Bool :=
  match v with
  | JValue.vObj fields => (jlookup fields k).isSome
  | _ => false

/-- The filesystem visible to the module: parsed JSON files by path, and the
set of existing directories. -/
structure FileSys where
  files : List (String × JValue)
  dirs : List String

/-- The content of a valid JSON file at a path, when present. -/
def fsLookup (fs : FileSys) (p : String) : Option JValue :=
  jlookup fs.files p

/-- Model of Node `fs.existsSync`: true when the path is a known file or
directory. -/
def existsSync (fs : FileSys) (p : String) : Bool :=
  (fsLookup fs p).isSome || fs.dirs.contains p

/-- Model of Node `path.join(dir, file)` for a nonempty directory segment. -/
def pathJoin (dir file : String) : String :=
  dir ++ "/" ++ file

/-- The process state read by the module: environment variables and the raw
command-line argument vector (`process.argv`, whose first two entries are the
interpreter and the script path). -/
structure ProcState where
  env : List (String × String)
  argv : List String

/-- Lookup of one environment variable. -/
def envLookup : List (String × String) → String → Option String
  | [], _ => none
  | (m, v) :: rest, k => if m = k then some v else envLookup rest k

/-- If the first list is a character-wise leading segment of the second,
return what remains of the second. -/
def stripPfx : List Char → List Char → Option (List Char)
  | [], l => some l
  | _ :: _, [] => none
  | a :: as, b :: bs => if a = b then stripPfx as bs else none

/-- Fuel-driven worker for JavaScript string splitting over character
lists: emit the accumulated segment at each occurrence of the separator.
Each step consumes at least one character, so fuel equal to the haystack
length always suffices for a nonempty separator. -/
def splitFuel (sep : List Char) : Nat → List Char → List Char → List (List Char)
  | _, [], acc => [acc.reverse]
  | 0, l, acc => [acc.reverse ++ l]
  | fuel + 1, c :: rest, acc =>
    match stripPfx sep (c :: rest) with
    | some remainder => acc.reverse :: splitFuel sep fuel remainder []
    | none => splitFuel sep fuel rest (c :: acc)

/-- Model of JavaScript `s.split(sep)`: an empty separator splits into
single characters, otherwise split on every occurrence of the separator. -/
def jsSplit (s sep : String) : List String :=
  if sep.isEmpty then s.toList.map (fun c => String.singleton c)
  else (splitFuel sep.toList s.toList.length s.toList []).map (fun l => String.mk l)

/-- Character-wise model of `s.startsWith(pre)`. -/
def strStarts (s pre : String) : Bool :=
  (stripPfx pre.toList s.toList).isSome

/-- Model of JavaScript `s.slice(n)` by characters. -/
def strDrop (s : String) (n : Nat) : String :=
  String.mk (s.toList.drop n)

/-- Modelled from the spec: nconf `argv()` "parses command-line arguments
into a tree (flags)".  The optimist-style parser inside nconf is not part of
the repository sources; flags of the form `--key value` become top-level
entries, a trailing valueless flag becomes a boolean, and positional
arguments contribute no keys. -/
def parseArgvFlags : List String → List (String × JValue)
  | [] => []
  | [a] => if strStarts a "--" then [(strDrop a 2, JValue.vBool true)] else []
  | a :: b :: rest =>
    if strStarts a "--" then
      if strStarts b "--" then
        (strDrop a 2, JValue.vBool true) :: parseArgvFlags (b :: rest)
      else
        (strDrop a 2, JValue.vStr b) :: parseArgvFlags rest
    else
      parseArgvFlags (b :: rest)

/-- Top-level entries of the argv source tree. -/
def argvFields (ps : ProcState) : List (String × JValue) :=
  parseArgvFlags (ps.argv.drop 2)

/-- The argv source tree ingested by nconf `argv()`. -/
def argvTree (ps : ProcState) : JValue :=
  JValue.vObj (argvFields ps)

/-- Top-level entries of the env source tree: every process environment
variable as a string-valued key. -/
def envFields (ps : ProcState) : List (String × JValue) :=
  ps.env.map (fun kv => (kv.1, JValue.vStr kv.2))

/-- The env source tree ingested by nconf `env()`. -/
def envTree (ps : ProcState) : JValue :=
  JValue.vObj (envFields ps)

/-- Modelled from the spec: the Source Store is "an ordered set of named
configuration sources", scanned in priority order, highest first.  nconf
keeps stores in a JavaScript object keyed by name, so priority order is
first-insertion order and re-adding an existing name replaces its tree in
place. -/
structure Provider where
  sources : List (String × JValue)

/-- Modelled from the spec: registering a source under a name.  A name
already present keeps its priority position and gets the new tree; a fresh
name is appended at lowest priority (JavaScript object key-insertion
order). -/
def addSource : List (String × JValue) → String → JValue → List (String × JValue)
  | [], n, t => [(n, t)]
  | (m, u) :: rest, n, t =>
    if m = n then (n, t) :: rest else (m, u) :: addSource rest n t

/-- Look up a top-level key across the sources in priority order; the first
source whose tree is a mapping containing the key wins (spec: "scans sources
in priority order; returns the value from the first source containing the
key"). -/
def sourcesLookup : List (String × JValue) → String → Option JValue
  | [], _ => none
  | (_, JValue.vObj fields) :: rest, k =>
    match jlookup fields k with
    | some v => some v
    | none => sourcesLookup rest k
  | _ :: rest, k => sourcesLookup rest k

/-- Modelled from the spec: nconf `get(canonicalKey)`.  The canonical key is
split on the internal `:` separator; the first segment selects the winning
source and the remaining segments traverse "within the single winning
source's subtree". -/
def providerGet (p : Provider) (key : String) : Option JValue :=
  match jsSplit key ":" with
  | [] => none
  | k :: rest =>
    match sourcesLookup p.sources k with
    | some v => treeGetPath v rest
    | none => none

/-- Modelled from the spec: nconf `argv().env()`, the reloadVolatileSources
operation — "re-ingests process arguments and process environment variables
as sources". -/
def Provider.argvEnv (ps : ProcState) (p : Provider) : Provider :=
  { sources := addSource (addSource p.sources "argv" (argvTree ps)) "env" (envTree ps) }

/-- Modelled from the spec: nconf `file(name, path)` — "parses the file at
`path` as a Settings Tree and registers/overwrites the source named `name`.
Fails (logged, not thrown) if the path does not exist; in that case no
source is registered/changed."  An undefined path likewise registers
nothing. -/
def nconfFile (fs : FileSys) (p : Provider) (name : String) (pathOpt : Option String) : Provider :=
  match pathOpt with
  | none => p
  | some pth =>
    match fsLookup fs pth with
    | some tree => { sources := addSource p.sources name tree }
    | none => p

/-- Modelled from the spec: nconf `overrides(obj)` registers the literal
store named "overrides"; called last by this module, it sits at the lowest
priority position. -/
def Provider.overrides (p : Provider) (name : String) : Provider :=
  { sources := addSource p.sources "overrides" (JValue.vObj [("environmentName", JValue.vStr name)]) }

/-- One emitted log line, via the injected logger or the console fallback. -/
inductive LogEntry where
  | info (msg : String)
  | warn (msg : String)
  | error (msg : String)

/-- A value passed where the JavaScript code expects a delimiter argument:
strings, null, undefined, numbers, booleans, or objects (classified only by
lodash emptiness). -/
inductive JSArg where
  | undef
  | null
  | str (s : String)
  | num (n : Int)
  | boolVal (b : Bool)
  | objVal (isEmptyObj : Bool)

/-- Model of lodash `_.isUndefined`. -/
def jsIsUndefined : JSArg → Bool
  | JSArg.undef => true
  | _ => false

/-- Model of lodash `_.isNull`. -/
def jsIsNull : JSArg → Bool
  | JSArg.null => true
  | _ => false

/-- Model of lodash `_.isString`. -/
def jsIsString : JSArg → Bool
  | JSArg.str _ => true
  | _ => false

/-- Model of lodash `_.isEmpty`: true on undefined, null, the empty string,
numbers and booleans (non-collections), and empty objects. -/
def jsIsEmpty : JSArg → Bool
  | JSArg.undef => true
  | JSArg.null => true
  | JSArg.str s => s.isEmpty
  | JSArg.num _ => true
  | JSArg.boolVal _ => true
  | JSArg.objVal e => e

/-- Model of lodash `_.includes(key, delimiter)` on strings: substring
containment (for a nonempty needle, the split yields more than one part
exactly when the needle occurs, and an empty needle is always included). -/
def strIncludes (s sub : String) : Bool :=
  sub.isEmpty || decide (1 < (jsSplit s sub).length)

/-- Embedding of `getConfigFileName` (source lines 15-17). -/
def getConfigFileName (configName : String) : String :=
  configName ++ ".json"

/-- Embedding of `cleanKey` (source lines 25-33): replace the caller's
delimiter with the nconf `:` separator when present, else return the key
unchanged. -/
def cleanKey (key delimiter : String) : String :=
  if strIncludes key delimiter then String.intercalate ":" (jsSplit key delimiter) else key

/-- The state of one `ServerConfig` instance.  `nconf = none` models the
JavaScript state in which the constructor bailed out before requiring nconf,
leaving `this.nconf` undefined; `log` accumulates the emitted log lines. -/
structure ServerConfig where
  configDirectory : Option String
  delimiter : String
  debug : Bool
  nconf : Option Provider
  logger : Option String
  log : List LogEntry

/-- Embedding of `ServerConfig.prototype.error` (source lines 316-323):
both the injected-logger branch and the console fallback emit the line. -/
def ServerConfig.error (self : ServerConfig) (value : String) : ServerConfig :=
  { self with log := self.log ++ [LogEntry.error value] }

/-- Embedding of `ServerConfig.prototype.info` (source lines 290-297). -/
def ServerConfig.info (self : ServerConfig) (value : String) : ServerConfig :=
  { self with log := self.log ++ [LogEntry.info value] }

/-- The constructor's validity test on the configured directory (source
line 52): undefined, empty, or not an existing path. -/
def dirInvalid (fs : FileSys) (dir : Option String) : Bool :=
  match dir with
  | none => true
  | some d => d.isEmpty || !(existsSync fs d)

/-- Embedding of the `ServerConfig` constructor (source lines 41-70): store
the directory, default the delimiter to ".", validate the directory (bailing
out with only an error logged on failure), then ingest argv and env and
store the logger when given. -/
def ServerConfig.construct (fs : FileSys) (ps : ProcState) (configJsonDirectory : Option String)
    (logger : Option String) : ServerConfig :=
  let self : ServerConfig :=
    { configDirectory := configJsonDirectory, delimiter := ".", debug := false,
      nconf := none, logger := none, log := [] }
  if dirInvalid fs configJsonDirectory then
    self.error "Config directory is invalid."
  else
    let self := { self with nconf := some (Provider.argvEnv ps { sources := [] }) }
    match logger with
    | some l => { self with logger := some l }
    | none => self

/-- Embedding of `ServerConfig.prototype.getConfigFilePath` (source lines
128-150).  `path.join` on an undefined directory raises a TypeError; on an
existing path the file name is logged and returned, otherwise an error is
logged and undefined returned. -/
def ServerConfig.getConfigFilePath (fs : FileSys) (self : ServerConfig) (configName : String) :
    Except String (ServerConfig × Option String) :=
  match self.configDirectory with
  | none => Except.error "TypeError: Path must be a string. Received undefined"
  | some d =>
    let fileName := getConfigFileName configName
    let tempPath := pathJoin d fileName
    if existsSync fs tempPath then
      Except.ok (self.info ("Loading config file: " ++ fileName), some tempPath)
    else
      Except.ok (self.error ("Failed to load config file for configuration: " ++ configName), none)

/-- Embedding of `ServerConfig.prototype.loadConfig` (source lines 156-166):
resolve the file path, hand it to nconf (`this.nconf` undefined raises a
TypeError), then force-reload argv and env. -/
def ServerConfig.loadConfig (fs : FileSys) (ps : ProcState) (self : ServerConfig)
    (configName : String) : Except String ServerConfig :=
  match self.getConfigFilePath fs configName with
  | Except.error e => Except.error e
  | Except.ok (self1, pathOpt) =>
    match self1.nconf with
    | none => Except.error "TypeError: Cannot read properties of undefined (reading file)"
    | some p =>
      let p1 := nconfFile fs p configName pathOpt
      Except.ok { self1 with nconf := some (Provider.argvEnv ps p1) }

/-- The truthiness test `if (process.env.NODE_ENV)` (source line 198): a
variable that is unset or set to the empty string is falsy. -/
def nodeEnvTruthy (ps : ProcState) : Option String :=
  match envLookup ps.env "NODE_ENV" with
  | some v => if v = "" then none else some v
  | none => none

/-- The environment-name resolution shared by `setEnvironmentName` and
`loadEnvironmentConfig` (source lines 198-217): NODE_ENV when truthy, else
the last command-line argument when `process.argv.length > 2`, else the
supplied default. -/
def resolveEnvName (ps : ProcState) (defaultConfig : String) : String :=
  match nodeEnvTruthy ps with
  | some v => v
  | none => if 2 < ps.argv.length then ps.argv.getLastD "" else defaultConfig

/-- The environment-name resolution step shared by `setEnvironmentName`
and `loadEnvironmentConfig` (source lines 76-100 and 195-217): NODE_ENV
when truthy (logging nothing), else the last command-line argument when
`process.argv.length > 2`, else the supplied default, the last two branches
logging an info line built from the given text. -/
def envNameStep (ps : ProcState) (self : ServerConfig) (defaultConfig msgStart : String) :
    ServerConfig × String :=
  match nodeEnvTruthy ps with
  | some v => (self, v)
  | none =>
    if 2 < ps.argv.length then
      let c := ps.argv.getLastD ""
      (self.info (msgStart ++ c), c)
    else
      (self.info (msgStart ++ defaultConfig), defaultConfig)

/-- The part of `loadEnvironmentConfig` after the name is resolved (source
lines 220-234): try the config file path, load the file only when the path
is defined, record the name via the overrides store, then force-reload argv
and env.  Accessing an undefined `this.nconf` raises a TypeError. -/
def ServerConfig.loadEnvTail (fs : FileSys) (ps : ProcState) (self : ServerConfig)
    (configName : String) : Except String ServerConfig :=
  match self.getConfigFilePath fs configName with
  | Except.error e => Except.error e
  | Except.ok (self1, pathOpt) =>
    match self1.nconf with
    | none => Except.error "TypeError: Cannot read properties of undefined (reading nconf)"
    | some p =>
      let p1 :=
        match pathOpt with
        | some _ => nconfFile fs p configName pathOpt
        | none => p
      let p2 := Provider.overrides p1 configName
      Except.ok { self1 with nconf := some (Provider.argvEnv ps p2) }

/-- Embedding of `ServerConfig.prototype.loadEnvironmentConfig` (source
lines 193-235): the name-resolution step followed by the load-and-record
tail. -/
def ServerConfig.loadEnvironmentConfig (fs : FileSys) (ps : ProcState) (self : ServerConfig)
    (defaultConfig : String) : Except String ServerConfig :=
  ServerConfig.loadEnvTail fs ps (envNameStep ps self defaultConfig "Running as: ").1
    (envNameStep ps self defaultConfig "Running as: ").2

/-- Embedding of `ServerConfig.prototype.setEnvironmentName` (source lines
76-104): resolve the environment name exactly as `loadEnvironmentConfig`
does (with its own log text) and record it via the overrides store, loading
no file. -/
def ServerConfig.setEnvironmentName (ps : ProcState) (self : ServerConfig)
    (defaultConfig : String) : Except String ServerConfig :=
  let step := envNameStep ps self defaultConfig "Setting environment name to: "
  match step.1.nconf with
  | none => Except.error "TypeError: Cannot read properties of undefined (reading overrides)"
  | some p => Except.ok { step.1 with nconf := some (Provider.overrides p step.2) }

/-- Embedding of `ServerConfig.prototype.setDelimiter` (source lines
241-250): reject (logging an error) anything undefined, null, lodash-empty,
or not a string; otherwise install the new delimiter.  The guard ensures the
argument is a nonempty string, so the fallback extraction is unreachable. -/
def ServerConfig.setDelimiter (self : ServerConfig) (delimiter : JSArg) : ServerConfig :=
  if jsIsUndefined delimiter || jsIsNull delimiter || jsIsEmpty delimiter
      || !(jsIsString delimiter) then
    self.error "Invalid delimiter specified."
  else
    match delimiter with
    | JSArg.str s => { self with delimiter := s }
    | _ => self

/-- One JavaScript indexing step `currentValue[key]` inside the getter loop:
indexing undefined or null raises a TypeError, a mapping yields the entry
(undefined when absent), and any other scalar yields undefined. -/
def jsIndex : Option JValue → String → Except String (Option JValue)
  | none, _ => Except.error "TypeError: Cannot read properties of undefined"
  | some JValue.vNull, _ => Except.error "TypeError: Cannot read properties of null"
  | some (JValue.vObj fields), k => Except.ok (jlookup fields k)
  | some _, _ => Except.ok none

/-- The traversal loop of the getter (source lines 268-272), applied to the
already-cleaned remaining keys. -/
def traverseKeys : Option JValue → List String → Except String (Option JValue)
  | cur, [] => Except.ok cur
  | cur, k :: ks =>
    match jsIndex cur k with
    | Except.ok v => traverseKeys v ks
    | Except.error e => Except.error e

/-- Embedding of `ServerConfig.prototype.get` (source lines 257-276): null
for no arguments; otherwise the first cleaned key is resolved through nconf
(`this.nconf` undefined raises a TypeError) and each further cleaned key is
one raw indexing step. -/
def ServerConfig.get (self : ServerConfig) (args : List String) : Except String (Option JValue) :=
  match args with
  | [] => Except.ok (some JValue.vNull)
  | k :: rest =>
    match self.nconf with
    | none => Except.error "TypeError: Cannot read properties of undefined (reading get)"
    | some p =>
      traverseKeys (providerGet p (cleanKey k self.delimiter))
        (rest.map (fun a => cleanKey a self.delimiter))

/-- Embedding of `ServerConfig.prototype.getEnvironmentName` (source lines
282-284). -/
def ServerConfig.getEnvironmentName (self : ServerConfig) : Except String (Option JValue) :=
  match self.nconf with
  | none => Except.error "TypeError: Cannot read properties of undefined (reading get)"
  | some p => Except.ok (providerGet p "environmentName")

/-- The module-level singleton cell `_instance` (source line 7). -/
structure ModuleState where
  inst : Option ServerConfig

/-- Embedding of the exported factory (source lines 331-340): construct and
cache an instance only when the cell is undefined, then return the cached
instance. -/
def moduleFactory (fs : FileSys) (ps : ProcState) (st : ModuleState)
    (configJsonDirectory : Option String) (logger : Option String) :
    ModuleState × ServerConfig :=
  match st.inst with
  | some i => (st, i)
  | none =>
    let i := ServerConfig.construct fs ps configJsonDirectory logger
    ({ inst := some i }, i)

/-- A concrete filesystem used for witnesses and counterexamples: a config
directory `cfg` holding `all.json`, `weird.json` (whose only top-level key
contains a dot), and `local.json`; `production.json` is absent. -/
def cexFS : FileSys :=
  { files := [("cfg/all.json", JValue.vObj [("name", JValue.vStr "base"),
        ("serverSettings", JValue.vObj [("port", JValue.vNum 3000)])]),
      ("cfg/weird.json", JValue.vObj [("a.b", JValue.vNum 7)]),
      ("cfg/local.json", JValue.vObj [("name", JValue.vStr "local")])],
    dirs := ["cfg"] }

/-- A process state with no environment variables and no extra command-line
arguments. -/
def cexPS : ProcState := { env := [], argv := ["node", "app.js"] }

/-- A process state with `NODE_ENV=production` set and no extra command-line
arguments. -/
def prodPS : ProcState := { env := [("NODE_ENV", "production")], argv := ["node", "app.js"] }

/-- A process state whose environment defines the variable `name`, shadowing
the `name` key of any loaded file. -/
def envShadowPS : ProcState := { env := [("name", "fromEnv")], argv := ["node", "app.js"] }

/-- The session obtained by constructing against `cfg` and loading
`all.json`, kept as an `Option` to observe that no exception occurred. -/
def cexLoaded : Option ServerConfig :=
  ((ServerConfig.construct cexFS cexPS (some "cfg") none).loadConfig cexFS cexPS "all").toOption

/-- The session obtained by constructing against `cfg` and loading
`weird.json`. -/
def weirdLoaded : Option ServerConfig :=
  ((ServerConfig.construct cexFS cexPS (some "cfg") none).loadConfig cexFS cexPS "weird").toOption

/-- A session constructed with a directory that does not exist. -/
def badDirSess : ServerConfig := ServerConfig.construct cexFS cexPS (some "/nope") none

theorem addSource_cons_self (n : String) (u t : JValue) (rest : List (String × JValue)) :
    addSource ((n, u) :: rest) n t = (n, t) :: rest := by
  simp [addSource]

theorem addSource_cons_ne (m n : String) (u t : JValue) (rest : List (String × JValue))
    (h : m ≠ n) : addSource ((m, u) :: rest) n t = (m, u) :: addSource rest n t := by
  simp [addSource, h]

theorem sourcesLookup_append (xs ys : List (String × JValue)) (k : String) :
    sourcesLookup (xs ++ ys) k =
      match sourcesLookup xs k with
      | some v => some v
      | none => sourcesLookup ys k := by
  induction xs with
  | nil => simp [sourcesLookup]
  | cons hd tl ih =>
    obtain ⟨n, v⟩ := hd
    cases v with
    | vObj fields =>
      cases h : jlookup fields k <;> simp [sourcesLookup, h, ih]
    | vNull => simpa [sourcesLookup] using ih
    | vBool b => simpa [sourcesLookup] using ih
    | vNum n2 => simpa [sourcesLookup] using ih
    | vStr s => simpa [sourcesLookup] using ih

theorem fsLookup_isSome_existsSync (fs : FileSys) (p : String) (t : JValue)
    (h : fsLookup fs p = some t) : existsSync fs p = true := by
  simp [existsSync, h]

theorem existsSync_false_fsLookup (fs : FileSys) (p : String)
    (h : existsSync fs p = false) : fsLookup fs p = none := by
  simp only [existsSync, Bool.or_eq_false_iff] at h
  exact Option.not_isSome_iff_eq_none.mp (by simp [h.1])

theorem get_congr (s1 s2 : ServerConfig) (h1 : s1.nconf = s2.nconf)
    (h2 : s1.delimiter = s2.delimiter) (args : List String) : s1.get args = s2.get args := by
  cases args with
  | nil => rfl
  | cons k rest => simp only [ServerConfig.get, h1, h2]

theorem cleanKey_of_not_included (k d : String) (h : strIncludes k d = false) :
    cleanKey k d = k := by
  simp [cleanKey, h]

theorem providerGet_single (p : Provider) (k : String) (h : jsSplit k ":" = [k]) :
    providerGet p k = sourcesLookup p.sources k := by
  cases h2 : sourcesLookup p.sources k <;> simp [providerGet, h, h2, treeGetPath]

theorem construct_valid (fs : FileSys) (ps : ProcState) (d : String) (logger : Option String)
    (h : dirInvalid fs (some d) = false) :
    ServerConfig.construct fs ps (some d) logger =
      { configDirectory := some d, delimiter := ".", debug := false,
        nconf := some { sources := [("argv", argvTree ps), ("env", envTree ps)] },
        logger := logger, log := [] } := by
  cases logger <;> simp [ServerConfig.construct, h, Provider.argvEnv, addSource]

theorem envNameStep_snd (ps : ProcState) (self : ServerConfig) (dc m : String) :
    (envNameStep ps self dc m).2 = resolveEnvName ps dc := by
  cases h : nodeEnvTruthy ps <;> by_cases h2 : 2 < ps.argv.length <;>
    simp [envNameStep, resolveEnvName, h, h2]

theorem envNameStep_nconf (ps : ProcState) (self : ServerConfig) (dc m : String) :
    (envNameStep ps self dc m).1.nconf = self.nconf := by
  cases h : nodeEnvTruthy ps <;> by_cases h2 : 2 < ps.argv.length <;>
    simp [envNameStep, h, h2, ServerConfig.info]

theorem envNameStep_dir (ps : ProcState) (self : ServerConfig) (dc m : String) :
    (envNameStep ps self dc m).1.configDirectory = self.configDirectory := by
  cases h : nodeEnvTruthy ps <;> by_cases h2 : 2 < ps.argv.length <;>
    simp [envNameStep, h, h2, ServerConfig.info]

theorem envNameStep_delim (ps : ProcState) (self : ServerConfig) (dc m : String) :
    (envNameStep ps self dc m).1.delimiter = self.delimiter := by
  cases h : nodeEnvTruthy ps <;> by_cases h2 : 2 < ps.argv.length <;>
    simp [envNameStep, h, h2, ServerConfig.info]

theorem loadEnvTail_dead (fs : FileSys) (ps : ProcState) (sess : ServerConfig) (c : String)
    (hn : sess.nconf = none) : ∃ e, sess.loadEnvTail fs ps c = Except.error e := by
  cases hd : sess.configDirectory with
  | none =>
    refine ⟨"TypeError: Path must be a string. Received undefined", ?_⟩
    simp [ServerConfig.loadEnvTail, ServerConfig.getConfigFilePath, hd]
  | some d =>
    simp only [ServerConfig.loadEnvTail, ServerConfig.getConfigFilePath, hd]
    cases h2 : existsSync fs (pathJoin d (getConfigFileName c)) <;>
      simp [h2, ServerConfig.info, ServerConfig.error, hn]

theorem loadConfig_fresh (fs : FileSys) (ps : ProcState) (d name : String)
    (logger : Option String) (tree : JValue)
    (hvalid : dirInvalid fs (some d) = false)
    (hfile : fsLookup fs (pathJoin d (name ++ ".json")) = some tree)
    (hna : name ≠ "argv") (hne : name ≠ "env") :
    (ServerConfig.construct fs ps (some d) logger).loadConfig fs ps name =
      Except.ok
        { configDirectory := some d, delimiter := ".", debug := false,
          nconf := some { sources :=
            [("argv", argvTree ps), ("env", envTree ps), (name, tree)] },
          logger := logger,
          log := [LogEntry.info ("Loading config file: " ++ (name ++ ".json"))] } := by
  rw [construct_valid fs ps d logger hvalid]
  have hex : existsSync fs (pathJoin d (name ++ ".json")) = true :=
    fsLookup_isSome_existsSync _ _ _ hfile
  simp [ServerConfig.loadConfig, ServerConfig.getConfigFilePath, getConfigFileName, hex,
    ServerConfig.info, nconfFile, hfile, Provider.argvEnv, addSource, Ne.symm hna, Ne.symm hne]

theorem loadEnvTail_fresh (fs : FileSys) (ps : ProcState) (sess : ServerConfig) (d n : String)
    (hn : sess.nconf = some { sources := [("argv", argvTree ps), ("env", envTree ps)] })
    (hd : sess.configDirectory = some d)
    (hn1 : n ≠ "argv") (hn2 : n ≠ "env") (hn3 : n ≠ "overrides") :
    ∃ sess2, sess.loadEnvTail fs ps n = Except.ok sess2 ∧
      sess2.delimiter = sess.delimiter ∧
      sess2.nconf = some { sources :=
        [("argv", argvTree ps), ("env", envTree ps)] ++
        (match fsLookup fs (pathJoin d (n ++ ".json")) with
         | some t => [(n, t)]
         | none => []) ++
        [("overrides", JValue.vObj [("environmentName", JValue.vStr n)])] } := by
  simp only [ServerConfig.loadEnvTail, ServerConfig.getConfigFilePath, hd, getConfigFileName]
  cases hex : existsSync fs (pathJoin d (n ++ ".json")) with
  | true =>
    cases hfl : fsLookup fs (pathJoin d (n ++ ".json")) with
    | some t =>
      simp only [hex, if_true, ServerConfig.info, hn, nconfFile, hfl, Provider.overrides,
        Provider.argvEnv, addSource, if_neg (Ne.symm hn1), if_neg (Ne.symm hn2),
        if_neg (Ne.symm hn3)]
      simp [addSource, Ne.symm hn1, Ne.symm hn2, Ne.symm hn3]
      exact hn3
    | none =>
      simp only [hex, if_true, ServerConfig.info, hn, nconfFile, hfl, Provider.overrides,
        Provider.argvEnv, addSource]
      simp [addSource, Ne.symm hn1, Ne.symm hn2, Ne.symm hn3]
  | false =>
    have hfl : fsLookup fs (pathJoin d (n ++ ".json")) = none :=
      existsSync_false_fsLookup fs _ hex
    simp only [hex, ServerConfig.error, hn, Provider.overrides, Provider.argvEnv, addSource]
    simp [addSource, hfl, Ne.symm hn1, Ne.symm hn2, Ne.symm hn3]

theorem loadEnvConfig_fresh (fs : FileSys) (ps : ProcState) (d dc : String)
    (logger : Option String)
    (hvalid : dirInvalid fs (some d) = false)
    (hn1 : resolveEnvName ps dc ≠ "argv") (hn2 : resolveEnvName ps dc ≠ "env")
    (hn3 : resolveEnvName ps dc ≠ "overrides") :
    ∃ sess, (ServerConfig.construct fs ps (some d) logger).loadEnvironmentConfig fs ps dc =
        Except.ok sess ∧
      sess.delimiter = "." ∧
      sess.nconf = some { sources :=
        [("argv", argvTree ps), ("env", envTree ps)] ++
        (match fsLookup fs (pathJoin d (resolveEnvName ps dc ++ ".json")) with
         | some t => [(resolveEnvName ps dc, t)]
         | none => []) ++
        [("overrides",
          JValue.vObj [("environmentName", JValue.vStr (resolveEnvName ps dc))])] } := by
  simp only [ServerConfig.loadEnvironmentConfig]
  rw [construct_valid fs ps d logger hvalid, envNameStep_snd]
  obtain ⟨sess2, h1, h2, h3⟩ :=
    loadEnvTail_fresh fs ps
      (envNameStep ps
        { configDirectory := some d, delimiter := ".", debug := false,
          nconf := some { sources := [("argv", argvTree ps), ("env", envTree ps)] },
          logger := logger, log := [] } dc "Running as: ").1
      d (resolveEnvName ps dc) (by rw [envNameStep_nconf]) (by rw [envNameStep_dir]) hn1 hn2 hn3
  refine ⟨sess2, h1, ?_, h3⟩
  rw [h2, envNameStep_delim]

/-- The provider state reached by constructing against `cfg` under `cexPS`
and loading `all.json`. -/
def demoProvider : Provider :=
  { sources := [("argv", argvTree cexPS), ("env", envTree cexPS),
      ("all", JValue.vObj [("name", JValue.vStr "base"),
        ("serverSettings", JValue.vObj [("port", JValue.vNum 3000)])])] }

/-- A ready session holding `demoProvider`, used to instantiate theorems
with hypotheses at a concrete input. -/
def demoSess : ServerConfig :=
  { configDirectory := some "cfg", delimiter := ".", debug := false,
    nconf := some demoProvider, logger := none,
    log := [LogEntry.info "Loading config file: all.json"] }

/-- A process state whose environment defines a variable literally named
`environmentName`, shadowing the override store. -/
def envNameShadowPS : ProcState :=
  { env := [("environmentName", "shadow")], argv := ["node", "app.js"] }

/-- C1: after a valid JSON file is loaded through loadConfig on a fresh
session, a top-level key of that file resolves to the file's value unless
the same key also exists among the argv flags or the environment variables,
in which case the argv value (first) or env value wins — argv and env are
re-ingested after the file load, so they keep the higher priority. -/
theorem claim_C1_file_env_argv_precedence (fs : FileSys) (ps : ProcState)
    (d name k : String) (logger : Option String) (ftree : List (String × JValue)) (v : JValue)
    (hvalid : dirInvalid fs (some d) = false)
    (hfile : fsLookup fs (pathJoin d (name ++ ".json")) = some (JValue.vObj ftree))
    (hna : name ≠ "argv") (hne : name ≠ "env")
    (hk : jlookup ftree k = some v)
    (hclean : strIncludes k "." = false)
    (hsplit : jsSplit k ":" = [k]) :
    ∃ sess, (ServerConfig.construct fs ps (some d) logger).loadConfig fs ps name =
        Except.ok sess ∧
      sess.get [k] = Except.ok (some (
        match jlookup (argvFields ps) k with
        | some va => va
        | none =>
          match jlookup (envFields ps) k with
          | some ve => ve
          | none => v)) := by
  refine ⟨_, loadConfig_fresh fs ps d name logger (JValue.vObj ftree) hvalid hfile hna hne, ?_⟩
  simp only [ServerConfig.get, List.map_nil]
  rw [cleanKey_of_not_included k "." hclean]
  rw [providerGet_single _ k hsplit]
  cases ha : jlookup (argvFields ps) k with
  | some va => simp [sourcesLookup, argvTree, envTree, ha, traverseKeys]
  | none =>
    cases he : jlookup (envFields ps) k with
    | some ve => simp [sourcesLookup, argvTree, envTree, ha, he, traverseKeys]
    | none => simp [sourcesLookup, argvTree, envTree, ha, he, hk, traverseKeys]

/-- C1 witness: the env variable `name` shadows the `name` entry of the
loaded `all.json`, so get returns the env value. -/
theorem claim_C1_file_env_argv_precedence_witness :
    ∃ sess, (ServerConfig.construct cexFS envShadowPS (some "cfg") none).loadConfig cexFS
        envShadowPS "all" = Except.ok sess ∧
      sess.get ["name"] = Except.ok (some (JValue.vStr "fromEnv")) :=
  claim_C1_file_env_argv_precedence cexFS envShadowPS "cfg" "all" "name" none
    [("name", JValue.vStr "base"), ("serverSettings", JValue.vObj [("port", JValue.vNum 3000)])]
    (JValue.vStr "base") rfl rfl (by decide) (by decide) rfl rfl rfl

/-- C3: when the config file for a name is absent, loadConfig logs the
failure, throws nothing, registers and changes no source, and leaves every
subsequent get result unchanged, on any session whose volatile argv/env
sources are already current for the process state. -/
theorem claim_C3_missing_file_load_noop (fs : FileSys) (ps : ProcState) (sess : ServerConfig)
    (p : Provider) (d name : String)
    (hn : sess.nconf = some p)
    (hd : sess.configDirectory = some d)
    (hvol : Provider.argvEnv ps p = p)
    (hmiss : existsSync fs (pathJoin d (name ++ ".json")) = false) :
    ∃ sess2, sess.loadConfig fs ps name = Except.ok sess2 ∧
      sess2.nconf = sess.nconf ∧
      sess2.delimiter = sess.delimiter ∧
      sess2.log = sess.log ++
        [LogEntry.error ("Failed to load config file for configuration: " ++ name)] ∧
      (∀ args, sess2.get args = sess.get args) := by
  have hstep : sess.loadConfig fs ps name =
      Except.ok
        { configDirectory := sess.configDirectory, delimiter := sess.delimiter,
          debug := sess.debug, nconf := some p, logger := sess.logger,
          log := sess.log ++
            [LogEntry.error ("Failed to load config file for configuration: " ++ name)] } := by
    simp [ServerConfig.loadConfig, ServerConfig.getConfigFilePath, hd, getConfigFileName,
      hmiss, ServerConfig.error, hn, nconfFile, hvol]
  refine ⟨_, hstep, ?_, rfl, rfl, ?_⟩
  · simp [hn]
  · intro args
    apply get_congr
    · simp [hn]
    · rfl

/-- C3 witness: loading the absent `production.json` on a fresh session
returns without an exception, changes no source, and logs the failure. -/
theorem claim_C3_missing_file_load_noop_witness :
    ∃ sess2, (ServerConfig.construct cexFS cexPS (some "cfg") none).loadConfig cexFS cexPS
        "production" = Except.ok sess2 ∧
      sess2.nconf = (ServerConfig.construct cexFS cexPS (some "cfg") none).nconf ∧
      sess2.delimiter = (ServerConfig.construct cexFS cexPS (some "cfg") none).delimiter ∧
      sess2.log = (ServerConfig.construct cexFS cexPS (some "cfg") none).log ++
        [LogEntry.error "Failed to load config file for configuration: production"] ∧
      (∀ args, sess2.get args = (ServerConfig.construct cexFS cexPS (some "cfg") none).get args) :=
  claim_C3_missing_file_load_noop cexFS cexPS
    (ServerConfig.construct cexFS cexPS (some "cfg") none)
    { sources := [("argv", argvTree cexPS), ("env", envTree cexPS)] } "cfg" "production"
    rfl rfl rfl rfl

/-- C4: loadEnvironmentConfig resolves the effective environment name as
NODE_ENV when truthy, else the last command-line argument when more than
two argv entries exist, else the supplied default, and — whether or not the
resolved name's config file exists — records the name so that
getEnvironmentName returns it, as long as no other source defines the key
`environmentName` and the resolved name does not collide with a store
name. -/
theorem claim_C4_environment_name_resolution (fs : FileSys) (ps : ProcState) (d dc : String)
    (logger : Option String)
    (hvalid : dirInvalid fs (some d) = false)
    (hn1 : resolveEnvName ps dc ≠ "argv") (hn2 : resolveEnvName ps dc ≠ "env")
    (hn3 : resolveEnvName ps dc ≠ "overrides")
    (ha : jlookup (argvFields ps) "environmentName" = none)
    (he : jlookup (envFields ps) "environmentName" = none)
    (hf : ∀ fields, fsLookup fs (pathJoin d (resolveEnvName ps dc ++ ".json")) =
        some (JValue.vObj fields) → jlookup fields "environmentName" = none) :
    ∃ sess, (ServerConfig.construct fs ps (some d) logger).loadEnvironmentConfig fs ps dc =
        Except.ok sess ∧
      sess.getEnvironmentName = Except.ok (some (JValue.vStr (resolveEnvName ps dc))) ∧
      (∀ v, nodeEnvTruthy ps = some v → resolveEnvName ps dc = v) ∧
      (nodeEnvTruthy ps = none → 2 < ps.argv.length →
        resolveEnvName ps dc = ps.argv.getLastD "") ∧
      (nodeEnvTruthy ps = none → ¬ 2 < ps.argv.length → resolveEnvName ps dc = dc) := by
  obtain ⟨sess, h1, hdl, hnc⟩ := loadEnvConfig_fresh fs ps d dc logger hvalid hn1 hn2 hn3
  refine ⟨sess, h1, ?_, fun v hv => by simp [resolveEnvName, hv],
    fun h0 h2 => by simp [resolveEnvName, h0, h2], fun h0 h2 => by simp [resolveEnvName, h0, h2]⟩
  simp only [ServerConfig.getEnvironmentName, hnc]
  rw [providerGet_single _ _ (show jsSplit "environmentName" ":" = ["environmentName"] from rfl)]
  cases hfl : fsLookup fs (pathJoin d (resolveEnvName ps dc ++ ".json")) with
  | some t =>
    cases t with
    | vObj fields =>
      have hf2 := hf fields hfl
      simp [sourcesLookup_append, sourcesLookup, argvTree, envTree, ha, he, hfl, hf2, jlookup]
    | vNull => simp [sourcesLookup_append, sourcesLookup, argvTree, envTree, ha, he, hfl, jlookup]
    | vBool b => simp [sourcesLookup_append, sourcesLookup, argvTree, envTree, ha, he, hfl, jlookup]
    | vNum n2 => simp [sourcesLookup_append, sourcesLookup, argvTree, envTree, ha, he, hfl, jlookup]
    | vStr s => simp [sourcesLookup_append, sourcesLookup, argvTree, envTree, ha, he, hfl, jlookup]
  | none => simp [sourcesLookup_append, sourcesLookup, argvTree, envTree, ha, he, hfl, jlookup]

/-- C4 witness: with `NODE_ENV=production` and `production.json` absent,
loadEnvironmentConfig('local') throws nothing and getEnvironmentName still
returns `production`. -/
theorem claim_C4_environment_name_resolution_witness :
    ∃ sess, (ServerConfig.construct cexFS prodPS (some "cfg") none).loadEnvironmentConfig
        cexFS prodPS "local" = Except.ok sess ∧
      sess.getEnvironmentName = Except.ok (some (JValue.vStr (resolveEnvName prodPS "local"))) ∧
      (∀ v, nodeEnvTruthy prodPS = some v → resolveEnvName prodPS "local" = v) ∧
      (nodeEnvTruthy prodPS = none → 2 < prodPS.argv.length →
        resolveEnvName prodPS "local" = prodPS.argv.getLastD "") ∧
      (nodeEnvTruthy prodPS = none → ¬ 2 < prodPS.argv.length →
        resolveEnvName prodPS "local" = "local") :=
  claim_C4_environment_name_resolution cexFS prodPS "cfg" "local" none rfl (by decide)
    (by decide) (by decide) rfl rfl (fun fields h => Option.noConfusion h)

/-- C5: the overrides store written by loadEnvironmentConfig has the lowest
priority — a key defined by argv wins, else env, else the loaded file, and
the recorded environment name is returned only when no other source
defines `environmentName`. -/
theorem claim_C5_override_lowest_priority (fs : FileSys) (ps : ProcState) (d dc : String)
    (logger : Option String)
    (hvalid : dirInvalid fs (some d) = false)
    (hn1 : resolveEnvName ps dc ≠ "argv") (hn2 : resolveEnvName ps dc ≠ "env")
    (hn3 : resolveEnvName ps dc ≠ "overrides") :
    ∃ sess, (ServerConfig.construct fs ps (some d) logger).loadEnvironmentConfig fs ps dc =
        Except.ok sess ∧
      sess.get ["environmentName"] = Except.ok (
        match jlookup (argvFields ps) "environmentName" with
        | some a => some a
        | none =>
          match jlookup (envFields ps) "environmentName" with
          | some e2 => some e2
          | none =>
            match fsLookup fs (pathJoin d (resolveEnvName ps dc ++ ".json")) with
            | some (JValue.vObj fields) =>
              match jlookup fields "environmentName" with
              | some fv => some fv
              | none => some (JValue.vStr (resolveEnvName ps dc))
            | _ => some (JValue.vStr (resolveEnvName ps dc))) := by
  obtain ⟨sess, h1, hdl, hnc⟩ := loadEnvConfig_fresh fs ps d dc logger hvalid hn1 hn2 hn3
  refine ⟨sess, h1, ?_⟩
  have hck : cleanKey "environmentName" "." = "environmentName" := rfl
  simp only [ServerConfig.get, hnc, hdl, hck, List.map_nil]
  rw [providerGet_single _ _ (show jsSplit "environmentName" ":" = ["environmentName"] from rfl)]
  cases ha : jlookup (argvFields ps) "environmentName" with
  | some a => simp [sourcesLookup_append, sourcesLookup, argvTree, envTree, ha, traverseKeys]
  | none =>
    cases he : jlookup (envFields ps) "environmentName" with
    | some e2 =>
      simp [sourcesLookup_append, sourcesLookup, argvTree, envTree, ha, he, traverseKeys]
    | none =>
      cases hfl : fsLookup fs (pathJoin d (resolveEnvName ps dc ++ ".json")) with
      | some t =>
        cases t with
        | vObj fields =>
          cases hfv : jlookup fields "environmentName" with
          | some fv =>
            simp [sourcesLookup_append, sourcesLookup, argvTree, envTree, ha, he, hfl, hfv,
              jlookup, traverseKeys]
          | none =>
            simp [sourcesLookup_append, sourcesLookup, argvTree, envTree, ha, he, hfl, hfv,
              jlookup, traverseKeys]
        | vNull =>
          simp [sourcesLookup_append, sourcesLookup, argvTree, envTree, ha, he, hfl, jlookup,
            traverseKeys]
        | vBool b =>
          simp [sourcesLookup_append, sourcesLookup, argvTree, envTree, ha, he, hfl, jlookup,
            traverseKeys]
        | vNum n2 =>
          simp [sourcesLookup_append, sourcesLookup, argvTree, envTree, ha, he, hfl, jlookup,
            traverseKeys]
        | vStr s =>
          simp [sourcesLookup_append, sourcesLookup, argvTree, envTree, ha, he, hfl, jlookup,
            traverseKeys]
      | none =>
        simp [sourcesLookup_append, sourcesLookup, argvTree, envTree, ha, he, hfl, jlookup,
          traverseKeys]

/-- C5 witness: an env variable literally named `environmentName` shadows
the override store, so get returns `shadow` rather than the recorded
environment name `local`. -/
theorem claim_C5_override_lowest_priority_witness :
    ∃ sess, (ServerConfig.construct cexFS envNameShadowPS
        (some "cfg") none).loadEnvironmentConfig cexFS envNameShadowPS "local" =
        Except.ok sess ∧
      sess.get ["environmentName"] = Except.ok (some (JValue.vStr "shadow")) :=
  claim_C5_override_lowest_priority cexFS envNameShadowPS "cfg" "local" none rfl (by decide)
    (by decide) (by decide)

/-- C9: cleanKey (the resolveKey operation) rewrites the raw key by
splitting on the delimiter and rejoining with the canonical `:` separator
when the delimiter occurs in the key, returns the key unchanged otherwise,
and in particular maps `serverSettings.port` under `.` to
`serverSettings:port` and leaves `serverSettings:port` unchanged under
`:`. -/
theorem claim_C9_cleanKey_resolution (raw delim : String) :
    (strIncludes raw delim = true →
      cleanKey raw delim = String.intercalate ":" (jsSplit raw delim)) ∧
    (strIncludes raw delim = false → cleanKey raw delim = raw) ∧
    cleanKey "serverSettings.port" "." = "serverSettings:port" ∧
    cleanKey "serverSettings:port" ":" = "serverSettings:port" := by
  refine ⟨fun h => ?_, fun h => ?_, rfl, rfl⟩
  · simp [cleanKey, h]
  · simp [cleanKey, h]

/-- C9 witness: the two conditional parts evaluated at concrete keys. -/
theorem claim_C9_cleanKey_resolution_witness :
    cleanKey "server.port" "." = String.intercalate ":" (jsSplit "server.port" ".") ∧
    cleanKey "serverPort" "." = "serverPort" :=
  ⟨(claim_C9_cleanKey_resolution "server.port" ".").1 rfl,
   (claim_C9_cleanKey_resolution "serverPort" ".").2.1 rfl⟩

/-- C6: setDelimiter rejects undefined, null, the empty string, and every
non-string value, logging an error and leaving the delimiter unchanged,
while a nonempty string replaces the delimiter; consequently a nonempty
delimiter stays nonempty. -/
theorem claim_C6_setDelimiter_guard (sess : ServerConfig) (arg : JSArg) :
    (arg = JSArg.undef ∨ arg = JSArg.null ∨ arg = JSArg.str "" ∨ jsIsString arg = false →
      sess.setDelimiter arg = sess.error "Invalid delimiter specified." ∧
      (sess.setDelimiter arg).delimiter = sess.delimiter) ∧
    (∀ s, arg = JSArg.str s → s ≠ "" →
      sess.setDelimiter arg = { sess with delimiter := s }) ∧
    (sess.delimiter ≠ "" → (sess.setDelimiter arg).delimiter ≠ "") := by
  refine ⟨fun h => ?_, fun s hs hne => ?_, fun hne => ?_⟩
  · rcases h with h | h | h | h
    · subst h
      simp [ServerConfig.setDelimiter, jsIsUndefined, ServerConfig.error]
    · subst h
      simp [ServerConfig.setDelimiter, jsIsUndefined, jsIsNull, ServerConfig.error]
    · subst h
      simp [ServerConfig.setDelimiter, jsIsUndefined, jsIsNull, jsIsEmpty, jsIsString,
        ServerConfig.error, show String.isEmpty "" = true from rfl]
    · cases arg with
      | str s => simp [jsIsString] at h
      | undef => simp [ServerConfig.setDelimiter, jsIsUndefined, ServerConfig.error]
      | null => simp [ServerConfig.setDelimiter, jsIsUndefined, jsIsNull, ServerConfig.error]
      | num n =>
        simp [ServerConfig.setDelimiter, jsIsUndefined, jsIsNull, jsIsEmpty, jsIsString,
          ServerConfig.error]
      | boolVal b =>
        simp [ServerConfig.setDelimiter, jsIsUndefined, jsIsNull, jsIsEmpty, jsIsString,
          ServerConfig.error]
      | objVal e =>
        simp [ServerConfig.setDelimiter, jsIsUndefined, jsIsNull, jsIsEmpty, jsIsString,
          ServerConfig.error]
  · subst hs
    have hb : s.isEmpty = false := by
      cases h2 : s.isEmpty
      · rfl
      · exact absurd (String.isEmpty_iff s |>.mp h2) hne
    simp [ServerConfig.setDelimiter, jsIsUndefined, jsIsNull, jsIsEmpty, jsIsString, hb]
  · cases arg with
    | str s =>
      cases h2 : s.isEmpty
      · have hsne : s ≠ "" := by
          intro he
          subst he
          exact absurd h2 (by decide)
        simp [ServerConfig.setDelimiter, jsIsUndefined, jsIsNull, jsIsEmpty, jsIsString, h2, hsne]
      · simp [ServerConfig.setDelimiter, jsIsUndefined, jsIsNull, jsIsEmpty, jsIsString, h2,
          ServerConfig.error, hne]
    | undef => simpa [ServerConfig.setDelimiter, jsIsUndefined, ServerConfig.error] using hne
    | null =>
      simpa [ServerConfig.setDelimiter, jsIsUndefined, jsIsNull, ServerConfig.error] using hne
    | num n =>
      simpa [ServerConfig.setDelimiter, jsIsUndefined, jsIsNull, jsIsEmpty, jsIsString,
        ServerConfig.error] using hne
    | boolVal b =>
      simpa [ServerConfig.setDelimiter, jsIsUndefined, jsIsNull, jsIsEmpty, jsIsString,
        ServerConfig.error] using hne
    | objVal e =>
      simpa [ServerConfig.setDelimiter, jsIsUndefined, jsIsNull, jsIsEmpty, jsIsString,
        ServerConfig.error] using hne

/-- C6 witness: a null argument leaves the `.` delimiter of `demoSess`
unchanged and a nonempty string replaces it. -/
theorem claim_C6_setDelimiter_guard_witness :
    (demoSess.setDelimiter JSArg.null).delimiter = demoSess.delimiter ∧
    demoSess.setDelimiter (JSArg.str "|") = { demoSess with delimiter := "|" } :=
  ⟨((claim_C6_setDelimiter_guard demoSess JSArg.null).1 (Or.inr (Or.inl rfl))).2,
   (claim_C6_setDelimiter_guard demoSess (JSArg.str "|")).2.1 "|" rfl (by decide)⟩

/-- C2 counterexample: on a session whose store has no key `missing`,
`get('missing', 'port')` raises a TypeError (indexing into the undefined
first lookup) instead of returning null or undefined, so the safety claim
fails as stated. -/
theorem claim_C2_cex_missing_traversal_throws :
    cexLoaded.map (fun s => s.get ["missing", "port"]) =
      some (Except.error "TypeError: Cannot read properties of undefined") := rfl

/-- C2 (amended): for a two-key get on a ready session, a mapping found
under the first resolved key yields its entry at the second resolved key
(undefined when absent) without exception, a scalar yields undefined
without exception, but an undefined or null first lookup makes the
traversal raise a TypeError. -/
theorem claim_C2_amended_two_key_get (sess : ServerConfig) (p : Provider) (k1 k2 : String)
    (hn : sess.nconf = some p) :
    (∀ m, providerGet p (cleanKey k1 sess.delimiter) = some (JValue.vObj m) →
      sess.get [k1, k2] = Except.ok (jlookup m (cleanKey k2 sess.delimiter))) ∧
    (providerGet p (cleanKey k1 sess.delimiter) = none →
      sess.get [k1, k2] = Except.error "TypeError: Cannot read properties of undefined") ∧
    (providerGet p (cleanKey k1 sess.delimiter) = some JValue.vNull →
      sess.get [k1, k2] = Except.error "TypeError: Cannot read properties of null") ∧
    (∀ s, providerGet p (cleanKey k1 sess.delimiter) = some (JValue.vStr s) →
      sess.get [k1, k2] = Except.ok none) ∧
    (∀ n, providerGet p (cleanKey k1 sess.delimiter) = some (JValue.vNum n) →
      sess.get [k1, k2] = Except.ok none) ∧
    (∀ b, providerGet p (cleanKey k1 sess.delimiter) = some (JValue.vBool b) →
      sess.get [k1, k2] = Except.ok none) := by
  refine ⟨fun m h => ?_, fun h => ?_, fun h => ?_, fun s h => ?_, fun n h => ?_, fun b h => ?_⟩ <;>
    simp [ServerConfig.get, hn, h, traverseKeys, jsIndex]

/-- C2 witness: on the demo store, `get('serverSettings', 'port')` returns
3000 and `get('missing', 'port')` raises. -/
theorem claim_C2_amended_two_key_get_witness :
    demoSess.get ["serverSettings", "port"] = Except.ok (some (JValue.vNum 3000)) ∧
    demoSess.get ["missing", "port"] =
      Except.error "TypeError: Cannot read properties of undefined" :=
  ⟨(claim_C2_amended_two_key_get demoSess demoProvider "serverSettings" "port" rfl).1
      [("port", JValue.vNum 3000)] rfl,
   (claim_C2_amended_two_key_get demoSess demoProvider "missing" "port" rfl).2.1 rfl⟩

/-- C7 counterexample: a session constructed with a nonexistent directory
raises a TypeError from `get` (its store was never created) instead of
returning undefined or null, so the fail-quietly claim fails as stated. -/
theorem claim_C7_cex_dead_session_get_throws :
    badDirSess.get ["x"] =
      Except.error "TypeError: Cannot read properties of undefined (reading get)" := rfl

/-- C7 (amended): an invalid directory at construction logs an error and
throws nothing at construction time, leaving a session without a store;
`setDelimiter` still works on that session, but `get` with at least one
key, `getEnvironmentName`, `loadConfig`, and `loadEnvironmentConfig` all
raise a TypeError instead of no-opping. -/
theorem claim_C7_amended_dead_session (fs : FileSys) (ps : ProcState) (dir : Option String)
    (logger : Option String) (h : dirInvalid fs dir = true) :
    (ServerConfig.construct fs ps dir logger).nconf = none ∧
    (ServerConfig.construct fs ps dir logger).log =
      [LogEntry.error "Config directory is invalid."] ∧
    (∀ s, s ≠ "" →
      ((ServerConfig.construct fs ps dir logger).setDelimiter (JSArg.str s)).delimiter = s) ∧
    (∀ k ks, ∃ e, (ServerConfig.construct fs ps dir logger).get (k :: ks) = Except.error e) ∧
    (∃ e, (ServerConfig.construct fs ps dir logger).getEnvironmentName = Except.error e) ∧
    (∀ name, ∃ e, (ServerConfig.construct fs ps dir logger).loadConfig fs ps name =
      Except.error e) ∧
    (∀ dc, ∃ e, (ServerConfig.construct fs ps dir logger).loadEnvironmentConfig fs ps dc =
      Except.error e) := by
  have hc : ServerConfig.construct fs ps dir logger =
      { configDirectory := dir, delimiter := ".", debug := false, nconf := none,
        logger := none, log := [LogEntry.error "Config directory is invalid."] } := by
    simp [ServerConfig.construct, h, ServerConfig.error]
  refine ⟨by rw [hc], by rw [hc], fun s hs => ?_, fun k ks => ?_, ⟨_, by rw [hc]; rfl⟩,
    fun name => ?_, fun dc => ?_⟩
  · have hb : s.isEmpty = false := by
      cases h2 : s.isEmpty
      · rfl
      · exact absurd (String.isEmpty_iff s |>.mp h2) hs
    rw [hc]
    simp [ServerConfig.setDelimiter, jsIsUndefined, jsIsNull, jsIsEmpty, jsIsString, hb]
  · rw [hc]
    exact ⟨_, rfl⟩
  · rw [hc]
    cases dir with
    | none => exact ⟨_, rfl⟩
    | some d =>
      simp only [ServerConfig.loadConfig, ServerConfig.getConfigFilePath]
      cases h2 : existsSync fs (pathJoin d (getConfigFileName name)) <;>
        simp [h2, ServerConfig.info, ServerConfig.error]
  · rw [hc]
    exact loadEnvTail_dead fs ps _ _ (by rw [envNameStep_nconf])

/-- C7 witness: the amended behaviour evaluated on the nonexistent
directory `/nope`. -/
theorem claim_C7_amended_dead_session_witness :
    badDirSess.nconf = none ∧
    badDirSess.log = [LogEntry.error "Config directory is invalid."] ∧
    (∃ e, badDirSess.getEnvironmentName = Except.error e) :=
  ⟨(claim_C7_amended_dead_session cexFS cexPS (some "/nope") none rfl).1,
   (claim_C7_amended_dead_session cexFS cexPS (some "/nope") none rfl).2.1,
   (claim_C7_amended_dead_session cexFS cexPS (some "/nope") none rfl).2.2.2.2.1⟩

/-- C8: the module factory is an idempotent singleton — a second call with
any arguments returns the very instance cached by the first call, which
keeps the first call's directory, and, when the first construction
succeeded, the first call's logger. -/
theorem claim_C8_singleton_first_wins (fs1 fs2 : FileSys) (ps1 ps2 : ProcState)
    (d1 d2 logger1 logger2 : Option String) :
    (moduleFactory fs2 ps2 (moduleFactory fs1 ps1 { inst := none } d1 logger1).1 d2 logger2).2 =
      (moduleFactory fs1 ps1 { inst := none } d1 logger1).2 ∧
    (moduleFactory fs2 ps2 (moduleFactory fs1 ps1 { inst := none } d1 logger1).1 d2 logger2).1 =
      (moduleFactory fs1 ps1 { inst := none } d1 logger1).1 ∧
    (moduleFactory fs1 ps1 { inst := none } d1 logger1).2 =
      ServerConfig.construct fs1 ps1 d1 logger1 ∧
    (ServerConfig.construct fs1 ps1 d1 logger1).configDirectory = d1 ∧
    (dirInvalid fs1 d1 = false → (ServerConfig.construct fs1 ps1 d1 logger1).logger = logger1) := by
  refine ⟨rfl, rfl, rfl, ?_, fun hv => ?_⟩
  · cases h : dirInvalid fs1 d1 <;> cases logger1 <;>
      simp [ServerConfig.construct, h, ServerConfig.error]
  · cases logger1 <;> simp [ServerConfig.construct, hv, ServerConfig.error]

/-- C8 witness: the logger conjunct evaluated with the valid directory
`cfg` and a named logger. -/
theorem claim_C8_singleton_first_wins_witness :
    (ServerConfig.construct cexFS cexPS (some "cfg") (some "winston")).logger = some "winston" :=
  (claim_C8_singleton_first_wins cexFS cexFS cexPS cexPS (some "cfg") (some "other")
    (some "winston") none).2.2.2.2 rfl

/-- C10: every constructed session starts with the delimiter `.`, so a
dotted key resolves a nested value with no prior setDelimiter call, while a
file whose only top-level key itself contains a dot cannot be looked up
literally until the delimiter is changed to one not occurring in the
key. -/
theorem claim_C10_default_delimiter_dot :
    (∀ fs ps dir logger, (ServerConfig.construct fs ps dir logger).delimiter = ".") ∧
    cexLoaded.map (fun s => s.get ["serverSettings.port"]) =
      some (Except.ok (some (JValue.vNum 3000))) ∧
    fsLookup cexFS "cfg/weird.json" = some (JValue.vObj [("a.b", JValue.vNum 7)]) ∧
    weirdLoaded.map (fun s => s.get ["a.b"]) = some (Except.ok none) ∧
    weirdLoaded.map (fun s => (s.setDelimiter (JSArg.str "|")).get ["a.b"]) =
      some (Except.ok (some (JValue.vNum 7))) := by
  refine ⟨fun fs ps dir logger => ?_, rfl, rfl, rfl, rfl⟩
  cases h : dirInvalid fs dir <;> cases logger <;>
    simp [ServerConfig.construct, h, ServerConfig.error]

end DhConfig
